import Mathlib

/-!
Verification of the OpenCIDN/httpmirror HTTP mirroring proxy.

Shallow embedding of the Go source into Lean 4.  Strings manipulated by the
Go code are modelled as `List Char` (Go iterates over `strings.Split` results
and byte/rune positions; the claims here never depend on the byte/rune
distinction).  Machine integers (`int64` sizes) are modelled as `Int`.

Source files referenced below:
  - utils.go           : cleanPath
  - cache.go           : cacheResponse, redirect, serveFromCache, setHeaders,
                         cacheFile, cacheFileDirect, setHuggingFaceHeaders
  - tee_response.go    : cacheFileTee and its producer goroutine
  - handler.go         : MirrorHandler configuration fields
  - fetch.go           : httpHead / httpGet / ErrNotOK
-/

namespace HttpMirror

/-- Go string, modelled as a list of characters. -/
abbrev GoStr := List Char

/-! ## utils.go: cleanPath -/

/-- `strings.Split(s, "/")` for a one-character separator, from the Go
standard library semantics: splits `s` around each `/`, returning all
substrings between separators.  `Split("", "/") = [""]`. -/
def splitSlash : GoStr → List GoStr
  | [] => [[]]
  | c :: cs =>
    if c = '/' then [] :: splitSlash cs
    else
      match splitSlash cs with
      | [] => [[c]]
      | s :: rest => (c :: s) :: rest

/-- `strings.Join(elems, "/")` from the Go standard library. -/
def joinSlash : List GoStr → GoStr
  | [] => []
  | [s] => s
  | s :: ss => s ++ '/' :: joinSlash ss

/-- The segment-processing loop of `cleanPath` (utils.go lines 9-21):
empty and `.` segments are dropped, `..` pops the last collected segment
when one exists, and every other segment is appended. -/
def cleanSegs : List GoStr → List GoStr → List GoStr
  | out, [] => out
  | out, p :: ps =>
    if p = [] ∨ p = ['.'] then cleanSegs out ps
    else if p = ['.', '.'] then cleanSegs out.dropLast ps
    else cleanSegs (out ++ [p]) ps

/-- `cleanPath` (utils.go lines 7-27): split on `/`, process segments,
return `/` when nothing is left and `/` ++ join otherwise. -/
def cleanPath (path : GoStr) : GoStr :=
  let out := cleanSegs [] (splitSlash path)
  if out = [] then ['/'] else '/' :: joinSlash out

/-- A segment that survives the `cleanSegs` loop: not empty, not `.`,
not `..`. -/
def goodSeg (s : GoStr) : Prop :=
  s ≠ [] ∧ s ≠ ['.'] ∧ s ≠ ['.', '.']

theorem splitSlash_ne_nil (cs : GoStr) : splitSlash cs ≠ [] := by
  induction cs with
  | nil => simp [splitSlash]
  | cons c cs ih =>
    simp only [splitSlash]
    by_cases h : c = '/'
    · simp [h]
    · simp only [if_neg h]
      cases hs : splitSlash cs with
      | nil => simp
      | cons s rest => simp

theorem splitSlash_no_slash {cs : GoStr} {s : GoStr}
    (hmem : s ∈ splitSlash cs) : '/' ∉ s := by
  induction cs generalizing s with
  | nil =>
    simp only [splitSlash, List.mem_singleton] at hmem
    subst hmem; simp
  | cons c cs ih =>
    simp only [splitSlash] at hmem
    by_cases h : c = '/'
    · rw [if_pos h] at hmem
      rcases List.mem_cons.mp hmem with h1 | h1
      · subst h1; simp
      · exact ih h1
    · rw [if_neg h] at hmem
      cases hs : splitSlash cs with
      | nil => exact absurd hs (splitSlash_ne_nil cs)
      | cons t rest =>
        rw [hs] at hmem
        rcases List.mem_cons.mp hmem with h1 | h1
        · subst h1
          intro hc
          rcases List.mem_cons.mp hc with h2 | h2
          · exact h h2.symm
          · exact ih (by rw [hs]; exact List.mem_cons_self t rest) h2
        · exact ih (by rw [hs]; exact List.mem_cons.mpr (Or.inr h1))

/-- Splitting a slash-free string yields just that string. -/
theorem splitSlash_of_no_slash {s : GoStr} (h : '/' ∉ s) :
    splitSlash s = [s] := by
  induction s with
  | nil => rfl
  | cons c cs ih =>
    have hc : c ≠ '/' := fun hh => h (hh ▸ List.mem_cons_self c cs)
    have hcs : '/' ∉ cs := fun hh => h (List.mem_cons.mpr (Or.inr hh))
    simp only [splitSlash, if_neg hc, ih hcs]

/-- Splitting `s ++ "/" ++ t` when `s` is slash-free: the head is `s`
and the tail is the split of `t`. -/
theorem splitSlash_append {s t : GoStr} (h : '/' ∉ s) :
    splitSlash (s ++ '/' :: t) = s :: splitSlash t := by
  induction s with
  | nil => simp [splitSlash]
  | cons c cs ih =>
    have hc : c ≠ '/' := fun hh => h (hh ▸ List.mem_cons_self c cs)
    have hcs : '/' ∉ cs := fun hh => h (List.mem_cons.mpr (Or.inr hh))
    simp only [List.cons_append, splitSlash, if_neg hc]
    rw [show cs.append ('/' :: t) = cs ++ '/' :: t from rfl, ih hcs]

/-- Round trip: splitting the join of nonempty, slash-free segments
recovers the segments. -/
theorem splitSlash_joinSlash {out : List GoStr} (hne : out ≠ [])
    (hns : ∀ s ∈ out, '/' ∉ s) :
    splitSlash (joinSlash out) = out := by
  induction out with
  | nil => exact absurd rfl hne
  | cons s ss ih =>
    cases ss with
    | nil =>
      simp only [joinSlash]
      exact splitSlash_of_no_slash (hns s (List.mem_cons_self s []))
    | cons t ts =>
      have hjoin : joinSlash (s :: t :: ts) = s ++ '/' :: joinSlash (t :: ts) := rfl
      rw [hjoin, splitSlash_append (hns s (List.mem_cons_self s (t :: ts)))]
      congr 1
      exact ih (by simp) (fun u hu => hns u (List.mem_cons.mpr (Or.inr hu)))

/-- Every segment of `cleanSegs acc ps` is either from `acc` or a good,
slash-free segment of `ps`. -/
theorem cleanSegs_mem {ps : List GoStr} {acc : List GoStr} {s : GoStr}
    (hacc : ∀ u ∈ acc, goodSeg u ∧ '/' ∉ u)
    (hps : ∀ u ∈ ps, '/' ∉ u)
    (hmem : s ∈ cleanSegs acc ps) : goodSeg s ∧ '/' ∉ s := by
  induction ps generalizing acc with
  | nil => exact hacc s hmem
  | cons p ps ih =>
    simp only [cleanSegs] at hmem
    by_cases h1 : p = [] ∨ p = ['.']
    · rw [if_pos h1] at hmem
      exact ih hacc (fun u hu => hps u (List.mem_cons.mpr (Or.inr hu))) hmem
    · rw [if_neg h1] at hmem
      by_cases h2 : p = ['.', '.']
      · rw [if_pos h2] at hmem
        refine ih ?_ (fun u hu => hps u (List.mem_cons.mpr (Or.inr hu))) hmem
        intro u hu
        exact hacc u (List.dropLast_sublist acc |>.subset hu)
      · rw [if_neg h2] at hmem
        refine ih ?_ (fun u hu => hps u (List.mem_cons.mpr (Or.inr hu))) hmem
        intro u hu
        rcases List.mem_append.mp hu with h3 | h3
        · exact hacc u h3
        · rw [List.mem_singleton] at h3
          subst h3
          push_neg at h1
          exact ⟨⟨h1.1, h1.2, h2⟩, hps u (List.mem_cons_self u ps)⟩

/-- Running the loop over segments that are all good appends them all. -/
theorem cleanSegs_of_good {ps : List GoStr} (h : ∀ u ∈ ps, goodSeg u) :
    ∀ acc, cleanSegs acc ps = acc ++ ps := by
  induction ps with
  | nil => intro acc; simp [cleanSegs]
  | cons p ps ih =>
    intro acc
    obtain ⟨hne, hdot, hdots⟩ := h p (List.mem_cons_self p ps)
    have h1 : ¬(p = [] ∨ p = ['.']) := by
      intro hor; rcases hor with h | h
      · exact hne h
      · exact hdot h
    simp only [cleanSegs, if_neg h1, if_neg hdots]
    rw [ih (fun u hu => h u (List.mem_cons.mpr (Or.inr hu)))]
    simp

/-- C8 helper: the cleaned segment list of any path consists of good,
slash-free segments. -/
theorem cleanSegs_splitSlash_good {p : GoStr} {s : GoStr}
    (hmem : s ∈ cleanSegs [] (splitSlash p)) : goodSeg s ∧ '/' ∉ s :=
  cleanSegs_mem (fun u hu => absurd hu (List.not_mem_nil u))
    (fun _ hu => splitSlash_no_slash hu) hmem

/-- C8: `cleanPath` is idempotent: `cleanPath (cleanPath p) = cleanPath p`
for every string `p` (utils.go lines 7-27). -/
theorem cleanPath_idempotent (p : GoStr) :
    cleanPath (cleanPath p) = cleanPath p := by
  unfold cleanPath
  set out := cleanSegs [] (splitSlash p) with hout
  by_cases hempty : out = []
  · simp only [if_pos hempty]
    rfl
  · simp only [if_neg hempty]
    have hgood : ∀ s ∈ out, goodSeg s ∧ '/' ∉ s := by
      intro s hs
      exact cleanSegs_splitSlash_good (hout ▸ hs)
    have hsplit : splitSlash ('/' :: joinSlash out) = [] :: out := by
      show (if ('/' : Char) = '/' then [] :: splitSlash (joinSlash out)
        else _) = [] :: out
      rw [if_pos rfl, splitSlash_joinSlash hempty (fun s hs => (hgood s hs).2)]
    rw [hsplit]
    have hstep : cleanSegs [] ([] :: out) = cleanSegs [] out := by
      simp [cleanSegs]
    rw [hstep, cleanSegs_of_good (fun u hu => (hgood u hu).1) []]
    simp only [List.nil_append, if_neg hempty]

/-! ## Response writer model

Go `net/http` semantics: `Header().Set` mutates the header map;
`WriteHeader(code)` sends the status line together with a snapshot of the
current header map, and later `Header().Set` calls have no effect on what
was sent; `Write` triggers an implicit `WriteHeader(200)` if none happened
yet; a handler that returns without writing anything causes the server to
send `200 OK` with the headers currently in the map and an empty body. -/

/-- HTTP method; the handler only admits GET and HEAD. -/
inductive Method
  | get
  | head
deriving DecidableEq, Repr

/-- Header map entry update: `http.Header.Set` replaces any existing value. -/
def setEntry : List (String × String) → String → String → List (String × String)
  | [], k, v => [(k, v)]
  | (k', v') :: rest, k, v =>
    if k' = k then (k, v) :: rest.filter (fun e => e.1 ≠ k)
    else (k', v') :: setEntry rest k v

/-- Header map lookup. -/
def getEntry (l : List (String × String)) (k : String) : Option String :=
  (l.find? (fun e => e.1 = k)).map (·.2)

/-- State of an `http.ResponseWriter` during a handler's execution. -/
structure RW where
  headers : List (String × String)
  status : Option Nat
  sent : List (String × String)
  body : GoStr
deriving DecidableEq, Repr

/-- A fresh response writer. -/
def RW.empty : RW := ⟨[], none, [], []⟩

/-- `rw.Header().Set(k, v)`. -/
def RW.setHeader (w : RW) (k v : String) : RW :=
  { w with headers := setEntry w.headers k v }

/-- `rw.WriteHeader(code)`: the first call snapshots the header map; later
calls are no-ops. -/
def RW.writeHeader (w : RW) (code : Nat) : RW :=
  match w.status with
  | some _ => w
  | none => { w with status := some code, sent := w.headers }

/-- `rw.Write(b)`: implicit `WriteHeader(200)` on first write. -/
def RW.write (w : RW) (b : GoStr) : RW :=
  let w' := w.writeHeader 200
  { w' with body := w'.body ++ b }

/-- Status the client observes once the handler returns: 200 when the
handler never wrote one. -/
def RW.finalStatus (w : RW) : Nat := w.status.getD 200

/-- Headers the client observes: the snapshot taken at `WriteHeader`, or
the current map when the handler never wrote a status. -/
def RW.finalHeaders (w : RW) : List (String × String) :=
  match w.status with
  | some _ => w.sent
  | none => w.headers

/-! ## Store metadata and the cache responders (cache.go) -/

/-- Metadata the remote store (`sss.FileInfo`) reports for a cached object:
`Size()`, `ModTime()` (kept abstract as its formatted string), and the
optional non-empty ETag exposed through `sss.FileInfoExpansion`. -/
structure StoreInfo where
  size : Int
  modTimeStr : String
  etag : Option String
deriving DecidableEq, Repr

/-- `MirrorHandler.setHeaders` (cache.go lines 24-32): sets `Etag` when the
store exposes a non-empty ETag. -/
def setHeadersM (w : RW) (info : StoreInfo) : RW :=
  match info.etag with
  | some e => if e ≠ "" then w.setHeader "Etag" e else w
  | none => w

/-- `MirrorHandler.serveFromCache` (cache.go lines 80-128) for a cache hit,
i.e. `info` already known.  The statement ordering is taken verbatim from
the source: for both HEAD and GET the code calls `WriteHeader(200)` first
and sets `Content-Type`, `Content-Length` and `Last-Modified` afterwards.
`readBody` is the content of the store reader used by the GET branch. -/
def serveFromCache (w : RW) (method : Method) (info : StoreInfo)
    (readBody : GoStr) : RW :=
  let w := setHeadersM w info
  match method with
  | .head =>
    let w := w.writeHeader 200
    let w := w.setHeader "Content-Type" "application/octet-stream"
    let w := w.setHeader "Content-Length" (toString info.size)
    w.setHeader "Last-Modified" info.modTimeStr
  | .get =>
    let w := w.writeHeader 200
    let w := w.setHeader "Content-Type" "application/octet-stream"
    let w := w.setHeader "Content-Length" (toString info.size)
    let w := w.setHeader "Last-Modified" info.modTimeStr
    w.write readBody

/-- `http.Redirect(rw, r, url, http.StatusFound)`: sets `Location` and
writes status 302. -/
def httpRedirect (w : RW) (url : String) : RW :=
  (w.setHeader "Location" url).writeHeader 302

/-- Environment for `MirrorHandler.redirect`: outcomes of the store calls
it may make.  `none`/`Except.error` model the corresponding Go errors. -/
structure RedirectEnv where
  statResult : Option StoreInfo
  signHead : Except Unit String
  signGet : Except Unit String
deriving Repr

/-- `MirrorHandler.redirect` (cache.go lines 34-76).  On a HEAD with no
metadata the code re-Stats; with metadata it emits headers then 200 (in
that order, unlike `serveFromCache`); otherwise it signs a presigned URL
and redirects, and on a signing error it logs and returns with nothing
written. -/
def redirectM (env : RedirectEnv) (w : RW) (method : Method)
    (info : Option StoreInfo) : RW :=
  match method with
  | .head =>
    let info := match info with
      | none => env.statResult
      | some i => some i
    match info with
    | some i =>
      let w := setHeadersM w i
      let w := w.setHeader "Content-Type" "application/octet-stream"
      let w := w.setHeader "Content-Length" (toString i.size)
      let w := w.setHeader "Last-Modified" i.modTimeStr
      w.writeHeader 200
    | none =>
      match env.signHead with
      | .error _ => w
      | .ok url => httpRedirect w url
  | .get =>
    match env.signGet with
    | .error _ => w
    | .ok url => httpRedirect w url

/-! ## Freshness arbitration (cache.go, cacheResponse lines 147-190) -/

/-- Outcome of `RemoteCache.Stat`: success with metadata, a
`context.Canceled` error, or any other error (treated as a miss). -/
inductive StatRes
  | hit (info : StoreInfo)
  | canceled
  | missErr
deriving DecidableEq, Repr

/-- Configuration bits of `MirrorHandler` that the freshness decision
reads: `CheckSyncTimeout` (0 disables probing) and whether `CIDNClient`
is non-nil. -/
structure FreshCfg where
  checkSyncTimeout : Nat
  cidnConfigured : Bool
deriving DecidableEq, Repr

/-- What `cacheResponse` decides to do after the Stat/probe phase. -/
inductive FreshDecision
  | error500
  | serveCache
  | refresh
deriving DecidableEq, Repr

/-- Decision together with whether an origin HEAD probe was issued. -/
structure FreshOut where
  decision : FreshDecision
  probed : Bool
deriving DecidableEq, Repr

/-- The Stat / freshness-probe phase of `cacheResponse` (cache.go lines
147-190), translated clause by clause:
  - Stat error that is `context.Canceled` → 500;
  - any other Stat error → miss → refresh;
  - hit with `CheckSyncTimeout == 0` → serve cache;
  - hit with `CIDNClient != nil` → the probe block is skipped (the `if
    m.CIDNClient == nil` guard) and control falls through to refresh;
  - otherwise a bounded `httpHead` probe: on error serve cache, else serve
    cache iff `cacheSize != 0 && (sourceSize <= 0 || sourceSize ==
    cacheSize)`, and refresh otherwise.
`headResult = none` models a probe failure or timeout. -/
def freshness (cfg : FreshCfg) (stat : StatRes)
    (headResult : Option StoreInfo) : FreshOut :=
  match stat with
  | .canceled => ⟨.error500, false⟩
  | .missErr => ⟨.refresh, false⟩
  | .hit cacheInfo =>
    if cfg.checkSyncTimeout = 0 then ⟨.serveCache, false⟩
    else if cfg.cidnConfigured then ⟨.refresh, false⟩
    else
      match headResult with
      | none => ⟨.serveCache, true⟩
      | some sourceInfo =>
        if cacheInfo.size ≠ 0 ∧
            (sourceInfo.size ≤ 0 ∨ sourceInfo.size = cacheInfo.size) then
          ⟨.serveCache, true⟩
        else ⟨.refresh, true⟩

/-! ## Refresh outcome handling (cache.go, cacheResponse lines 192-263) -/

/-- Error class of a refresh producer's result: `ErrNotOK` or anything
else. -/
inductive ProducerErr
  | notOK
  | other
deriving DecidableEq, Repr

/-- Result the single-flight channel delivers to the waiting handler. -/
inductive RefreshResult
  | ok
  | err (e : ProducerErr)
deriving DecidableEq, Repr

/-- What the handler writes after the refresh completes. -/
inductive RespondAction
  | servedCache
  | served404
  | served500
  | servedTee
  | noWrite
deriving DecidableEq, Repr

/-- The post-refresh response logic of `cacheResponse`, covering both the
tee branch (cache.go lines 192-234: on `result.Err != nil` the code logs
and returns, writing nothing, regardless of any stale entry) and the
non-tee branch (lines 244-262: stale entry → serve cache; `ErrNotOK` →
404; otherwise → 500; success → serve cache).  `hadCache` records whether
the pre-refresh `Stat` had returned an entry. -/
def afterRefresh (teeMode : Bool) (hadCache : Bool)
    (res : RefreshResult) : RespondAction :=
  if teeMode then
    match res with
    | .err _ => .noWrite
    | .ok => .servedTee
  else
    match res with
    | .ok => .servedCache
    | .err e =>
      if hadCache then .servedCache
      else
        match e with
        | .notOK => .served404
        | .other => .served500

/-! ## Refresh producers (cache.go cacheFileDirect, tee_response.go
cacheFileTee) -/

/-- Errors a producer can return, classifying the Go error values. -/
inductive GoErr
  | notOK
  | fetchErr
  | fsErr
  | writerErr
  | copyErr
  | sizeMismatch
  | commitErr
deriving DecidableEq, Repr

/-- Side effects of a producer on the store and the filesystem, in
program order. -/
inductive Act
  | tmpCreate
  | writerCreate
  | cancel
  | commit
  | removeTmp
  | rename
deriving DecidableEq, Repr

/-- Outcome of `io.Copy(dst, body)`: clean completion with `n` bytes, an
error wrapping `io.EOF` with `n` bytes, or any other error. -/
inductive CopyRes
  | done (n : Int)
  | eofErr (n : Int)
  | failed (n : Int)
deriving DecidableEq, Repr

/-- Environment for one run of `cacheFileDirect`: outcomes of the external
calls in the order the code makes them. -/
structure DirectEnv where
  getResult : Except GoErr StoreInfo
  writerOk : Bool
  copyRes : CopyRes
  commitOk : Bool
deriving Repr

/-- `cacheFileDirect` (cache.go lines 273-329), returning the Go result
and the trace of store effects:
  - fetch error → propagate;
  - `Content-Length == 0` → `ErrNotOK` before any writer exists;
  - writer creation error → propagate;
  - copy error (any non-nil error, `io.EOF` included here since the code
    checks only `err != nil`) → `Cancel`;
  - `contentLength > 0 && n != contentLength` → `Cancel`;
  - else `Commit` (whose own failure does not `Cancel`). -/
def cacheFileDirectRun (env : DirectEnv) : Except GoErr Unit × List Act :=
  match env.getResult with
  | .error e => (.error e, [])
  | .ok info =>
    if info.size = 0 then (.error .notOK, [])
    else if ¬env.writerOk then (.error .writerErr, [])
    else
      match env.copyRes with
      | .failed _ => (.error .copyErr, [.writerCreate, .cancel])
      | .eofErr _ => (.error .copyErr, [.writerCreate, .cancel])
      | .done n =>
        if info.size > 0 ∧ n ≠ info.size then
          (.error .sizeMismatch, [.writerCreate, .cancel])
        else if env.commitOk then (.ok (), [.writerCreate, .commit])
        else (.error .commitErr, [.writerCreate, .commit])

/-- The tee producer goroutine body (tee_response.go lines 123-176), after
a successful setup.  Unlike the direct path, an error wrapping `io.EOF`
is tolerated (`err != nil && !errors.Is(err, io.EOF)`); `localSet` is
`LocalCacheDir != ""` (the goroutine then unlinks the tmp file on failure
and renames it after a successful `Commit`). -/
def teeProducerActs (size : Int) (localSet : Bool) (c : CopyRes)
    (commitOk : Bool) : List Act :=
  match c with
  | .failed _ => [.cancel] ++ (if localSet then [.removeTmp] else [])
  | .eofErr n | .done n =>
    if size > 0 ∧ n ≠ size then
      [.cancel] ++ (if localSet then [.removeTmp] else [])
    else if commitOk then
      [.commit] ++ (if localSet then [.rename] else [])
    else
      [.commit] ++ (if localSet then [.removeTmp] else [])

/-- Environment for one run of `cacheFileTee` including its producer
goroutine. -/
structure TeeEnv where
  getResult : Except GoErr StoreInfo
  localDirSet : Bool
  mkdirOk : Bool
  tmpOk : Bool
  writerOk : Bool
  copyRes : CopyRes
  commitOk : Bool
deriving Repr

/-- `cacheFileTee` (tee_response.go lines 65-178) with the complete effect
trace (setup plus, when setup succeeds, the spawned producer goroutine):
  - fetch error → propagate, no effects;
  - `Content-Length == 0` → `ErrNotOK` before the tmp file and the remote
    writer exist;
  - `MkdirAll` failure (local dir mode) → propagate, no effects;
  - tmp creation failure → propagate;
  - writer creation failure → propagate, tmp file removed;
  - otherwise the `teeResponse` is returned (`.ok`) and the producer runs. -/
def cacheFileTeeRun (env : TeeEnv) : Except GoErr Unit × List Act :=
  match env.getResult with
  | .error e => (.error e, [])
  | .ok info =>
    if info.size = 0 then (.error .notOK, [])
    else if env.localDirSet ∧ ¬env.mkdirOk then (.error .fsErr, [])
    else if ¬env.tmpOk then (.error .fsErr, [])
    else if ¬env.writerOk then (.error .writerErr, [.tmpCreate, .removeTmp])
    else
      (.ok (), [.tmpCreate, .writerCreate] ++
        teeProducerActs info.size env.localDirSet env.copyRes env.commitOk)

/-! ## Context independence of the refresh producer (cache.go cacheFile,
lines 266-271) -/

/-- A Go `context.Context` as the producer sees it: the detached
`context.Background()`, or a request context that may have been
canceled. -/
inductive Ctx
  | background
  | request (canceled : Bool)
deriving DecidableEq, Repr

/-- `MirrorHandler.cacheFile` (cache.go lines 266-271): dispatches to
`cacheFileWithCIDN` when `CIDNClient != nil` and to `cacheFileDirect`
otherwise, in both cases passing `context.Background()` — the incoming
`ctx` argument is never consulted.  `direct` and `cidn` give, for each
context a callee could run under, that callee's result and effects. -/
def cacheFileM (cidnConfigured : Bool)
    (direct cidn : Ctx → Except GoErr Unit × List Act) (ctx : Ctx) :
    Except GoErr Unit × List Act :=
  if cidnConfigured then cidn Ctx.background else direct Ctx.background

/-- Context sensitivity of `cacheFileDirect`'s external calls: under a
canceled context the initial `httpGet` fails at once; under a live
context the calls behave as `base` records. -/
def ctxDirectEnv (base : DirectEnv) : Ctx → DirectEnv
  | .request true => { base with getResult := .error .fetchErr }
  | _ => base

/-- `cacheFile` instantiated with the real direct refresher running under
whichever context it is handed. -/
def cacheFileFull (cidnConfigured : Bool) (base : DirectEnv)
    (cidn : Ctx → Except GoErr Unit × List Act) (ctx : Ctx) :
    Except GoErr Unit × List Act :=
  cacheFileM cidnConfigured
    (fun c => cacheFileDirectRun (ctxDirectEnv base c)) cidn ctx

/-! ## Hugging Face revision header (cache.go setHuggingFaceHeaders,
lines 484-614 of the concatenated file) -/

/-- First index at which `needle` occurs in `hay`
(`strings.Index`; `none` for Go's `-1`). -/
def indexOfSub (needle : GoStr) : GoStr → Option Nat
  | [] => if needle = [] then some 0 else none
  | c :: cs =>
    if needle.isPrefixOf (c :: cs) then some 0
    else (indexOfSub needle cs).map (· + 1)

/-- The `hfHosts` set (cache.go): `huggingface.co` and `hf-mirror.com`. -/
def hfHost (h : GoStr) : Bool :=
  h = "huggingface.co".toList ∨ h = "hf-mirror.com".toList

/-- The literal `"/resolve/"` (9 characters). -/
def resolveSeg : GoStr := "/resolve/".toList

/-- The `<ref>` the code extracts: the text after the first `"/resolve/"`,
cut at the next `/` when one follows (cache.go lines 494-503). -/
def repoRefOf (path : GoStr) : Option GoStr :=
  match indexOfSub resolveSeg path with
  | none => none
  | some i => some ((path.drop (i + 9)).takeWhile (fun c => c ≠ '/'))

/-- A hexadecimal digit. -/
def isHexChar (c : Char) : Bool :=
  c.isDigit ∨ ('a' ≤ c ∧ c ≤ 'f') ∨ ('A' ≤ c ∧ c ≤ 'F')

/-- What `setHuggingFaceHeaders` decides to do. -/
inductive HFOutcome
  | skip
  | direct (ref : GoStr)
  | resolveVia (apiFile : GoStr)
deriving DecidableEq, Repr

/-- The decision portion of `setHuggingFaceHeaders` (cache.go lines
484-520): skip when `RemoteCache == nil`, when the request host is not a
Hugging Face mirror, or when the path has no `"/resolve/"`; set
`X-Repo-Commit` to the extracted `<ref>` directly and return when
`len(repoRef) == 40`; otherwise resolve
`<host>/api/{models|datasets|spaces}/<repo>/revision/<ref>` through the
cache-or-fetch path. -/
def setHuggingFaceOutcome (remoteCacheSet : Bool) (host path : GoStr) :
    HFOutcome :=
  if ¬remoteCacheSet then .skip
  else if ¬hfHost host then .skip
  else
    match indexOfSub resolveSeg path with
    | none => .skip
    | some i =>
      let repoRef := (path.drop (i + 9)).takeWhile (fun c => c ≠ '/')
      if repoRef.length = 40 then .direct repoRef
      else
        let repoName := (path.take i).drop 1
        let (repoType, repoName) :=
          if ("datasets/".toList).isPrefixOf repoName then
            ("datasets".toList, repoName.drop 9)
          else if ("spaces/".toList).isPrefixOf repoName then
            ("spaces".toList, repoName.drop 7)
          else ("models".toList, repoName)
        .resolveVia (host ++ "/api/".toList ++ repoType ++ ['/'] ++
          repoName ++ "/revision/".toList ++ repoRef)

/-- Effect of the outcome on the response writer: only the direct case
writes the header before returning (cache.go lines 505-508). -/
def hfApply (w : RW) : HFOutcome → RW
  | .direct ref => w.setHeader "X-Repo-Commit" (String.mk ref)
  | _ => w

/-! ## Single-flight coordination

Modelled from the spec: the single-flight coordinator (spec section 4.3)
is provided by the external `golang.org/x/sync/singleflight` package,
whose source is not part of this repository; `cacheResponse`
(cache.go lines 192-238) calls `m.group.DoChan(file, producer)`.  The
model below renders the documented contract: an arrival for a key with no
in-flight call starts the producer (one upstream GET); an arrival during
an in-flight call joins as a waiter; completion removes the entry and
broadcasts the producer's single outcome to every waiter. -/

/-- Cache key. -/
abbrev Key := String

/-- Identifier of a waiting request handler. -/
abbrev CallerId := Nat

/-- Global state of the single-flight table plus the observable history:
upstream GETs issued and results delivered to callers. -/
structure SFState where
  flights : List (Key × List CallerId)
  gets : List Key
  delivered : List (CallerId × Key × RefreshResult)
deriving Repr

/-- Active flight for a key, when one exists. -/
def lookupFlight (l : List (Key × List CallerId)) (k : Key) :
    Option (List CallerId) :=
  (l.find? (fun e => e.1 = k)).map (·.2)

/-- Register one more waiter on the flight for `k`. -/
def addWaiter : List (Key × List CallerId) → Key → CallerId →
    List (Key × List CallerId)
  | [], _, _ => []
  | (k', ws) :: rest, k, c =>
    if k' = k then (k', c :: ws) :: rest
    else (k', ws) :: addWaiter rest k c

/-- Drop the flight for `k` (the `Forget`/internal delete on return). -/
def removeFlight (l : List (Key × List CallerId)) (k : Key) :
    List (Key × List CallerId) :=
  l.filter (fun e => e.1 ≠ k)

/-- One atomic transition of the single-flight table. -/
inductive SFStep : SFState → SFState → Prop
  | start (s : SFState) (k : Key) (c : CallerId)
      (h : lookupFlight s.flights k = none) :
      SFStep s ⟨(k, [c]) :: s.flights, k :: s.gets, s.delivered⟩
  | join (s : SFState) (k : Key) (c : CallerId) (ws : List CallerId)
      (h : lookupFlight s.flights k = some ws) :
      SFStep s ⟨addWaiter s.flights k c, s.gets, s.delivered⟩
  | complete (s : SFState) (k : Key) (ws : List CallerId)
      (res : RefreshResult) (h : lookupFlight s.flights k = some ws) :
      SFStep s ⟨removeFlight s.flights k, s.gets,
        ws.map (fun c => (c, k, res)) ++ s.delivered⟩

/-- States reachable from the empty table. -/
inductive SFReach : SFState → Prop
  | init : SFReach ⟨[], [], []⟩
  | step {s t : SFState} : SFReach s → SFStep s t → SFReach t

theorem lookupFlight_none_iff {l : List (Key × List CallerId)} {k : Key} :
    lookupFlight l k = none ↔ ∀ e ∈ l, e.1 ≠ k := by
  unfold lookupFlight
  rw [Option.map_eq_none']
  rw [List.find?_eq_none]
  constructor
  · intro h e he
    have := h e he
    simpa using this
  · intro h e he
    simpa using h e he

theorem addWaiter_map_fst (l : List (Key × List CallerId)) (k : Key)
    (c : CallerId) : (addWaiter l k c).map Prod.fst = l.map Prod.fst := by
  induction l with
  | nil => rfl
  | cons e rest ih =>
    obtain ⟨k', ws⟩ := e
    simp only [addWaiter]
    by_cases h : k' = k
    · simp [h]
    · simp [h, ih]

/-- Invariant: the single-flight table never holds two flights for the
same key. -/
theorem sfReach_nodup {s : SFState} (h : SFReach s) :
    (s.flights.map Prod.fst).Nodup := by
  induction h with
  | init => simp
  | step _ hstep ih =>
    cases hstep with
    | start k c hl =>
      simp only [List.map_cons, List.nodup_cons]
      refine ⟨?_, ih⟩
      intro hmem
      obtain ⟨e, he, hek⟩ := List.mem_map.mp hmem
      exact (lookupFlight_none_iff.mp hl e he) hek
    | join k c ws hl =>
      simpa [addWaiter_map_fst] using ih
    | complete k ws res hl =>
      exact ((List.filter_sublist _).map Prod.fst).nodup ih

/-- A step taken while a flight for `k` is open issues no new GET
for `k`. -/
theorem sfStep_gets_const {s t : SFState} {k : Key} (hstep : SFStep s t)
    (hopen : lookupFlight s.flights k ≠ none) :
    t.gets.count k = s.gets.count k := by
  cases hstep with
  | start k' c hl =>
    have hne : k' ≠ k := by
      intro hkk
      exact hopen (hkk ▸ hl)
    simp only []
    rw [List.count_cons_of_ne (fun h => hne h.symm)]
  | join k' c ws hl => rfl
  | complete k' ws res hl => rfl

/-- A step either delivers nothing, or broadcasts one producer outcome to
exactly the flight's waiters. -/
theorem sfStep_broadcast {s t : SFState} (hstep : SFStep s t) :
    t.delivered = s.delivered ∨
    ∃ k ws res, lookupFlight s.flights k = some ws ∧
      t.delivered = ws.map (fun c => (c, k, res)) ++ s.delivered := by
  cases hstep with
  | start k c hl => exact Or.inl rfl
  | join k c ws hl => exact Or.inl rfl
  | complete k ws res hl => exact Or.inr ⟨k, ws, res, hl, rfl⟩

theorem getEntry_setEntry (l : List (String × String)) (k v : String) :
    getEntry (setEntry l k v) k = some v := by
  induction l with
  | nil => simp [setEntry, getEntry, List.find?]
  | cons e rest ih =>
    obtain ⟨k', v'⟩ := e
    simp only [setEntry]
    by_cases h : k' = k
    · simp [h, getEntry, List.find?]
    · simp only [if_neg h, getEntry, List.find?]
      rw [show (decide (k' = k)) = false from decide_eq_false h]
      exact ih

/-- The failure mode C3 talks about: the copy errs with something other
than end-of-stream, or the byte count disagrees with a known positive
content length. -/
def copyFailed (size : Int) : CopyRes → Prop
  | .failed _ => True
  | .eofErr n => 0 < size ∧ n ≠ size
  | .done n => 0 < size ∧ n ≠ size

theorem teeProducerActs_spec (size : Int) (localSet : Bool) (c : CopyRes)
    (commitOk : Bool) (hc : copyFailed size c) :
    Act.cancel ∈ teeProducerActs size localSet c commitOk ∧
    Act.commit ∉ teeProducerActs size localSet c commitOk ∧
    (localSet = true →
      Act.removeTmp ∈ teeProducerActs size localSet c commitOk) := by
  cases c with
  | failed n => cases localSet <;> simp [teeProducerActs]
  | eofErr n =>
    obtain ⟨h1, h2⟩ := hc
    have hcond : size > 0 ∧ n ≠ size := ⟨h1, h2⟩
    cases localSet <;> simp [teeProducerActs, if_pos hcond]
  | done n =>
    obtain ⟨h1, h2⟩ := hc
    have hcond : size > 0 ∧ n ≠ size := ⟨h1, h2⟩
    cases localSet <;> simp [teeProducerActs, if_pos hcond]

/-! ## Claim theorems -/

/-- C1, counterexample to the claim as stated: with a CIDN client
configured and `CheckSyncTimeout = 1`, a request whose key has a remote
entry of size 5 — and whose origin would even report the same size 5 —
is refreshed without any origin HEAD probe, whereas the claim requires a
probe to be issued and, on equal sizes, the cache to be served
(cache.go line 166, the `if m.CIDNClient == nil` guard). -/
theorem c1_counterexample :
    (freshness ⟨1, true⟩ (.hit ⟨5, "t", none⟩) (some ⟨5, "t", none⟩)).probed
        = false ∧
    (freshness ⟨1, true⟩ (.hit ⟨5, "t", none⟩) (some ⟨5, "t", none⟩)).decision
        ≠ .serveCache := by
  decide

/-- C1, amended: for every request whose cache key has a remote entry and
whose handler has no CIDN client configured, the handler serves the cache
when `CheckSyncTimeout` is 0; otherwise it issues one origin HEAD bounded
by `CheckSyncTimeout` and serves the cache when that probe fails or times
out, serves the cache when `cache.size != 0` and (`origin.size <= 0` or
`origin.size == cache.size`), and refreshes in every other case
(cache.go lines 147-190). -/
theorem c1_amended (cfg : FreshCfg) (stat : StatRes) (info : StoreInfo)
    (headResult : Option StoreInfo)
    (hstat : stat = .hit info) (hcidn : cfg.cidnConfigured = false) :
    (cfg.checkSyncTimeout = 0 →
      freshness cfg stat headResult = ⟨.serveCache, false⟩) ∧
    (cfg.checkSyncTimeout ≠ 0 →
      (freshness cfg stat headResult).probed = true ∧
      (headResult = none →
        (freshness cfg stat headResult).decision = .serveCache) ∧
      (∀ src, headResult = some src →
        (freshness cfg stat headResult).decision =
          if info.size ≠ 0 ∧ (src.size ≤ 0 ∨ src.size = info.size)
          then .serveCache else .refresh)) := by
  subst hstat
  constructor
  · intro h0
    simp [freshness, h0]
  · intro hne
    refine ⟨?_, ?_, ?_⟩
    · simp only [freshness, if_neg hne, hcidn]
      cases headResult with
      | none => rfl
      | some src =>
        simp only [Bool.false_eq_true, if_false]
        split <;> rfl
    · intro hnone
      subst hnone
      simp [freshness, if_neg hne, hcidn]
    · intro src hsrc
      subst hsrc
      simp only [freshness, if_neg hne, hcidn, Bool.false_eq_true, if_false]
      split <;> simp_all

/-- C1 witness: a concrete configuration without CIDN, probe answering
size 5 against a cached size 5, serves the cache after probing. -/
theorem c1_witness :
    (freshness ⟨2, false⟩ (.hit ⟨5, "t", none⟩) (some ⟨5, "t", none⟩)).probed
        = true ∧
    (freshness ⟨2, false⟩ (.hit ⟨5, "t", none⟩) (some ⟨5, "t", none⟩)).decision
        = .serveCache := by
  have h := c1_amended ⟨2, false⟩ (.hit ⟨5, "t", none⟩) ⟨5, "t", none⟩
    (some ⟨5, "t", none⟩) rfl rfl
  have h2 := h.2 (by decide)
  refine ⟨h2.1, ?_⟩
  have h4 := h2.2.2 ⟨5, "t", none⟩ rfl
  rw [h4, if_pos (by decide)]

/-- C2, counterexample to the claim as stated: in tee mode, a producer
error with a pre-refresh cache entry present makes the handler log and
return with nothing written (cache.go lines 204-208), instead of serving
the stale entry. -/
theorem c2_counterexample :
    afterRefresh true true (.err .other) = .noWrite ∧
    afterRefresh true true (.err .other) ≠ .servedCache := by
  decide

/-- C2, amended: on the non-tee single-flight path, a producer error is
answered with the pre-refresh cache entry when one existed, with 404 when
the error is `ErrNotOK` and no entry existed, and with 500 otherwise
(cache.go lines 244-262); on the tee path a producer error makes the
handler return without writing anything, even when a stale entry exists
(cache.go lines 204-208). -/
theorem c2_amended (hadCache : Bool) (e : ProducerErr) :
    afterRefresh false hadCache (.err e) =
      (if hadCache then .servedCache
       else match e with
            | .notOK => .served404
            | .other => .served500) ∧
    afterRefresh true hadCache (.err e) = .noWrite := by
  cases hadCache <;> cases e <;> decide

/-- C3: whenever the copy from the origin fails with a non-end-of-stream
error or the byte count disagrees with a known positive content length,
both refreshers Cancel the remote writer and never Commit, and the tee
refresher with a local cache path unlinks its temp file
(tee_response.go lines 129-152, cache.go lines 299-315). -/
theorem c3_theorem (tenv : TeeEnv) (denv : DirectEnv) (ti di : StoreInfo)
    (ht : tenv.getResult = .ok ti) (htsize : ti.size ≠ 0)
    (htm : tenv.mkdirOk = true) (htt : tenv.tmpOk = true)
    (htw : tenv.writerOk = true)
    (htc : copyFailed ti.size tenv.copyRes)
    (hd : denv.getResult = .ok di) (hdsize : di.size ≠ 0)
    (hdw : denv.writerOk = true)
    (hdc : copyFailed di.size denv.copyRes) :
    (Act.cancel ∈ (cacheFileTeeRun tenv).2 ∧
      Act.commit ∉ (cacheFileTeeRun tenv).2 ∧
      (tenv.localDirSet = true → Act.removeTmp ∈ (cacheFileTeeRun tenv).2)) ∧
    (Act.cancel ∈ (cacheFileDirectRun denv).2 ∧
      Act.commit ∉ (cacheFileDirectRun denv).2) := by
  constructor
  · have hrun : cacheFileTeeRun tenv =
        (.ok (), [.tmpCreate, .writerCreate] ++
          teeProducerActs ti.size tenv.localDirSet tenv.copyRes
            tenv.commitOk) := by
      unfold cacheFileTeeRun
      rw [ht]
      simp [htsize, htm, htt, htw]
    rw [hrun]
    obtain ⟨hc1, hc2, hc3⟩ := teeProducerActs_spec ti.size tenv.localDirSet
      tenv.copyRes tenv.commitOk htc
    refine ⟨?_, ?_, ?_⟩
    · simp [hc1]
    · simp only [List.cons_append, List.mem_cons]
      push_neg
      exact ⟨by decide, by decide, hc2⟩
    · intro hl
      simp [hc3 hl]
  · cases hcopy : denv.copyRes with
    | failed n =>
      have hrun : cacheFileDirectRun denv =
          (.error .copyErr, [.writerCreate, .cancel]) := by
        unfold cacheFileDirectRun
        rw [hd]
        simp [hdsize, hdw, hcopy]
      rw [hrun]
      decide
    | eofErr n =>
      have hrun : cacheFileDirectRun denv =
          (.error .copyErr, [.writerCreate, .cancel]) := by
        unfold cacheFileDirectRun
        rw [hd]
        simp [hdsize, hdw, hcopy]
      rw [hrun]
      decide
    | done n =>
      rw [hcopy] at hdc
      have hcond : di.size > 0 ∧ n ≠ di.size := ⟨hdc.1, hdc.2⟩
      have hrun : cacheFileDirectRun denv =
          (.error .sizeMismatch, [.writerCreate, .cancel]) := by
        unfold cacheFileDirectRun
        rw [hd]
        simp [hdsize, hdw, hcopy, if_pos hcond]
      rw [hrun]
      decide

/-- C3 witness: concrete failing copies (tee: hard error after 3 bytes
with local cache dir set; direct: 4 of 10 expected bytes). -/
theorem c3_witness :
    (Act.cancel ∈ (cacheFileTeeRun
        ⟨.ok ⟨10, "t", none⟩, true, true, true, true, .failed 3, true⟩).2) ∧
    (Act.commit ∉ (cacheFileDirectRun
        ⟨.ok ⟨10, "t", none⟩, true, .done 4, true⟩).2) := by
  have h := c3_theorem
    ⟨.ok ⟨10, "t", none⟩, true, true, true, true, .failed 3, true⟩
    ⟨.ok ⟨10, "t", none⟩, true, .done 4, true⟩
    ⟨10, "t", none⟩ ⟨10, "t", none⟩
    rfl (by decide) rfl rfl rfl trivial
    rfl (by decide) rfl (show (0:Int) < 10 ∧ (4:Int) ≠ 10 by decide)
  exact ⟨h.1.1, h.2.2⟩

/-- C4: single-flight serialization (modelled from spec section 4.3, used
by cacheResponse at cache.go lines 192-238): in every reachable state the
table holds at most one flight per key, no step taken while a flight for
a key is open issues a new upstream GET for that key, and every delivery
event broadcasts a single producer outcome to exactly the flight's
waiters. -/
theorem c4_theorem :
    (∀ s : SFState, SFReach s → (s.flights.map Prod.fst).Nodup) ∧
    (∀ (s t : SFState) (k : Key), SFStep s t →
      lookupFlight s.flights k ≠ none →
      t.gets.count k = s.gets.count k) ∧
    (∀ s t : SFState, SFStep s t →
      t.delivered = s.delivered ∨
      ∃ k ws res, lookupFlight s.flights k = some ws ∧
        t.delivered = ws.map (fun c => (c, k, res)) ++ s.delivered) :=
  ⟨fun _ h => sfReach_nodup h,
   fun _ _ _ hstep hopen => sfStep_gets_const hstep hopen,
   fun _ _ hstep => sfStep_broadcast hstep⟩

/-- C4 witness: three concurrent callers on key `"k"` — one starts the
producer, two join, the producer completes — reach a state with exactly
one upstream GET and the same outcome delivered to all three, and the
steps taken while the flight was open kept the GET count at one. -/
theorem c4_witness :
    (((⟨[("k", [2, 1, 0])], ["k"],
        []⟩ : SFState).flights.map Prod.fst).Nodup) ∧
    ((⟨[("k", [2, 1, 0])], ["k"], []⟩ : SFState).gets.count "k" =
      (⟨[("k", [1, 0])], ["k"], []⟩ : SFState).gets.count "k") ∧
    ((⟨[], ["k"], [(2, "k", RefreshResult.ok), (1, "k", RefreshResult.ok),
        (0, "k", RefreshResult.ok)]⟩ : SFState).delivered =
      (⟨[("k", [2, 1, 0])], ["k"], []⟩ : SFState).delivered ∨
      ∃ k ws res,
        lookupFlight (⟨[("k", [2, 1, 0])], ["k"], []⟩ : SFState).flights k
          = some ws ∧
        (⟨[], ["k"], [(2, "k", RefreshResult.ok), (1, "k", RefreshResult.ok),
          (0, "k", RefreshResult.ok)]⟩ : SFState).delivered =
          ws.map (fun c => (c, k, res)) ++
            (⟨[("k", [2, 1, 0])], ["k"], []⟩ : SFState).delivered) := by
  refine ⟨?_, ?_, ?_⟩
  · exact c4_theorem.1 ⟨[("k", [2, 1, 0])], ["k"], []⟩
      (SFReach.step
        (SFReach.step
          (SFReach.step SFReach.init (SFStep.start ⟨[], [], []⟩ "k" 0 rfl))
          (SFStep.join ⟨[("k", [0])], ["k"], []⟩ "k" 1 [0] rfl))
        (SFStep.join ⟨[("k", [1, 0])], ["k"], []⟩ "k" 2 [1, 0] rfl))
  · exact c4_theorem.2.1 ⟨[("k", [1, 0])], ["k"], []⟩
      ⟨[("k", [2, 1, 0])], ["k"], []⟩ "k"
      (SFStep.join ⟨[("k", [1, 0])], ["k"], []⟩ "k" 2 [1, 0] rfl)
      (by decide)
  · exact c4_theorem.2.2 ⟨[("k", [2, 1, 0])], ["k"], []⟩
      ⟨[], ["k"], [(2, "k", RefreshResult.ok), (1, "k", RefreshResult.ok),
        (0, "k", RefreshResult.ok)]⟩
      (SFStep.complete ⟨[("k", [2, 1, 0])], ["k"], []⟩ "k" [2, 1, 0]
        RefreshResult.ok rfl)

/-- C5: `cacheFile` hands `context.Background()` to whichever refresher it
dispatches to, so its result and side effects are the same for every
caller context; in particular a run that Commits still Commits when the
caller's context is canceled (cache.go lines 266-271). -/
theorem c5_theorem (cidnConfigured : Bool)
    (direct cidn : Ctx → Except GoErr Unit × List Act)
    (base : DirectEnv) (ctx ctx' : Ctx) :
    cacheFileM cidnConfigured direct cidn ctx =
      cacheFileM cidnConfigured direct cidn ctx' ∧
    cacheFileFull false base cidn ctx = cacheFileDirectRun base ∧
    (Act.commit ∈ (cacheFileDirectRun base).2 →
      Act.commit ∈ (cacheFileFull false base cidn ctx).2) := by
  refine ⟨rfl, ?_, ?_⟩
  · cases ctx with
    | background => rfl
    | request c => cases c <;> rfl
  · intro h
    have he : cacheFileFull false base cidn ctx = cacheFileDirectRun base := by
      cases ctx with
      | background => rfl
      | request c => cases c <;> rfl
    rw [he]
    exact h

/-- C5 witness: a successful refresh (10 of 10 bytes) Commits even when
run on behalf of a canceled request context. -/
theorem c5_witness :
    Act.commit ∈ (cacheFileFull false ⟨.ok ⟨10, "t", none⟩, true, .done 10,
      true⟩ (fun _ => (.ok (), [])) (.request true)).2 :=
  (c5_theorem false (fun _ => (.ok (), [])) (fun _ => (.ok (), []))
    ⟨.ok ⟨10, "t", none⟩, true, .done 10, true⟩ (.request true)
    .background).2.2 (by decide)

/-- C6: the claim says a NoRedirect cache hit carries Content-Type,
Content-Length and Last-Modified; the code however calls
`WriteHeader(200)` before setting those headers (cache.go lines 98-101
and 117-120), and under `net/http` semantics headers set after the
status is written are never transmitted.  At the failing input — a hit
with size 11 — HEAD answers 200 with none of the three headers, and GET
streams the body equally without them. -/
theorem c6_code_bug :
    (serveFromCache RW.empty .head ⟨11, "t", none⟩ []).finalStatus = 200 ∧
    getEntry (serveFromCache RW.empty .head ⟨11, "t", none⟩ []).finalHeaders
      "Content-Length" = none ∧
    getEntry (serveFromCache RW.empty .head ⟨11, "t", none⟩ []).finalHeaders
      "Content-Type" = none ∧
    getEntry (serveFromCache RW.empty .head ⟨11, "t", none⟩ []).finalHeaders
      "Last-Modified" = none ∧
    (serveFromCache RW.empty .get ⟨11, "t", none⟩
      "hello world".toList).body = "hello world".toList ∧
    getEntry (serveFromCache RW.empty .get ⟨11, "t", none⟩
      "hello world".toList).finalHeaders "Content-Length" = none := by
  decide

/-- C7: a refresh whose origin GET reports `Content-Length == 0` returns
`ErrNotOK` with no effects at all — in particular no remote writer is
created and no Commit occurs — for both the tee refresher
(tee_response.go lines 73-77) and the direct refresher (cache.go lines
282-285). -/
theorem c7_theorem (tenv : TeeEnv) (denv : DirectEnv) (ti di : StoreInfo)
    (ht : tenv.getResult = .ok ti) (hts : ti.size = 0)
    (hd : denv.getResult = .ok di) (hds : di.size = 0) :
    cacheFileTeeRun tenv = (.error .notOK, []) ∧
    cacheFileDirectRun denv = (.error .notOK, []) := by
  constructor
  · unfold cacheFileTeeRun
    rw [ht]
    simp [hts]
  · unfold cacheFileDirectRun
    rw [hd]
    simp [hds]

/-- C7 witness: concrete zero-length origins. -/
theorem c7_witness :
    cacheFileTeeRun ⟨.ok ⟨0, "t", none⟩, false, true, true, true, .done 0,
        true⟩ = (.error .notOK, []) ∧
    cacheFileDirectRun ⟨.ok ⟨0, "t", none⟩, true, .done 0, true⟩ =
      (.error .notOK, []) :=
  c7_theorem _ _ ⟨0, "t", none⟩ ⟨0, "t", none⟩ rfl rfl rfl rfl

/-- C9: with the remote cache configured (as it is whenever the
orchestrator adapter runs), a request to a Hugging Face mirror host whose
path yields a `/resolve/<ref>/` reference of 40 hexadecimal characters
gets `X-Repo-Commit: <ref>` set directly, with no revision resolution
through the cache-or-fetch path (cache.go lines 490-508). -/
theorem c9_theorem (host path ref : GoStr) (w : RW)
    (hhost : hfHost host = true)
    (href : repoRefOf path = some ref)
    (hlen : ref.length = 40)
    (hhex : ref.all isHexChar = true) :
    setHuggingFaceOutcome true host path = .direct ref ∧
    getEntry (hfApply w (setHuggingFaceOutcome true host path)).headers
      "X-Repo-Commit" = some (String.mk ref) := by
  have hout : setHuggingFaceOutcome true host path = .direct ref := by
    unfold setHuggingFaceOutcome
    rw [if_neg (by simp), if_neg (by simp [hhost])]
    unfold repoRefOf at href
    cases hidx : indexOfSub resolveSeg path with
    | none => rw [hidx] at href; exact absurd href (by simp)
    | some i =>
      rw [hidx] at href
      have hrefeq : (path.drop (i + 9)).takeWhile (fun c => c ≠ '/') = ref :=
        by simpa using href
      simp only [hrefeq, if_pos hlen]
  refine ⟨hout, ?_⟩
  rw [hout]
  exact getEntry_setEntry w.headers "X-Repo-Commit" (String.mk ref)

/-- Concrete Hugging Face mirror host for the C9 witness. -/
def hfExHost : GoStr := "huggingface.co".toList

/-- Concrete request path with a 40-hex-character resolve reference. -/
def hfExPath : GoStr :=
  "/org/repo/resolve/0123456789abcdef0123456789abcdef01234567/file.bin".toList

/-- The 40-hex-character reference inside `hfExPath`. -/
def hfExRef : GoStr := "0123456789abcdef0123456789abcdef01234567".toList

/-- C9 witness: `huggingface.co` with path
`/org/repo/resolve/<40 hex chars>/file.bin`. -/
theorem c9_witness :
    setHuggingFaceOutcome true hfExHost hfExPath = .direct hfExRef := by
  have h := c9_theorem hfExHost hfExPath hfExRef RW.empty
    (by decide) (by decide) (by decide) (by decide)
  exact h.1

/-- C10: in redirect mode, when signing fails — `SignGet` for a GET, or
`SignHead` for a HEAD that has no metadata and whose re-Stat also fails —
the handler returns with the response writer untouched, so a fresh writer
yields an empty-bodied implicit `200 OK`, not a 500
(cache.go lines 34-76). -/
theorem c10_theorem (env : RedirectEnv) (w : RW) (info : Option StoreInfo)
    (hget : env.signGet = .error ()) (hhead : env.signHead = .error ())
    (hstat : env.statResult = none) :
    redirectM env w .get info = w ∧
    redirectM env w .head none = w ∧
    (redirectM env RW.empty .get info).finalStatus = 200 ∧
    (redirectM env RW.empty .get info).body = [] ∧
    (redirectM env RW.empty .head none).finalStatus = 200 ∧
    (redirectM env RW.empty .head none).body = [] := by
  have hg : ∀ w' : RW, redirectM env w' .get info = w' := by
    intro w'
    unfold redirectM
    rw [hget]
  have hh : ∀ w' : RW, redirectM env w' .head none = w' := by
    intro w'
    unfold redirectM
    simp only [hstat, hhead]
  refine ⟨hg w, hh w, ?_, ?_, ?_, ?_⟩ <;>
    first
      | rw [hg RW.empty]; rfl
      | rw [hh RW.empty]; rfl

/-- C10 witness: an environment whose signing calls both fail. -/
theorem c10_witness :
    redirectM ⟨none, .error (), .error ()⟩ RW.empty .get none = RW.empty ∧
    (redirectM ⟨none, .error (), .error ()⟩ RW.empty .get none).finalStatus
      = 200 :=
  ⟨(c10_theorem ⟨none, .error (), .error ()⟩ RW.empty none rfl rfl rfl).1,
   (c10_theorem ⟨none, .error (), .error ()⟩ RW.empty none rfl rfl rfl).2.2.1⟩

end HttpMirror
